import Mathlib

/-!
Shallow embedding of `src/appointments.py`: an incremental-fetch
reconciliation workflow that reads a job CSV from a remote store, computes
the set of appointment IDs still missing from a dump CSV, fetches them one
by one from a remote API, and appends the results in batches.

JSON values are modelled as `Value`, records as association lists, tables
as lists of named columns of optional integers (a `none` entry is a
missing/NaN cell).  The remote API is modelled as an oracle
`fetch : Int → Except String Record` giving the outcome of fetching each
ID, and `fetch_appt` models the single-entity HTTP helper as a function of
the HTTP response it receives.  `main` returns a `RunResult` recording the
observable behaviour of one run: exit status, created files, the computed
todo list, every append operation in order, warnings, fetch attempts,
token requests and the reported final count.
-/

namespace Appointments

/-- A JSON-ish scalar value stored in a record field. -/
inductive Value where
  | int (n : Int)
  | str (s : String)
  deriving DecidableEq, Repr

/-- A fetched record: a mapping field name → value, insertion ordered
(models a Python dict). -/
abbrev Record := List (String × Value)

/-- An HTTP response as seen by `fetch_appt`: final status code and the
parsed JSON body. -/
structure HttpResponse where
  statusCode : Nat
  payload : Record
  deriving DecidableEq, Repr

/-- Python `dict.setdefault k v`: insert `k ↦ v` (at the end) only when the
key is absent. -/
def setdefault (d : Record) (k : String) (v : Value) : Record :=
  if (d.lookup k).isSome then d else d ++ [(k, v)]

/-- `fetch_appt` (src lines 91-100): a 404 yields the NOT_FOUND sentinel
record; `raise_for_status` raises exactly on status codes 400-599; any
other response is parsed and the requested id injected when absent. -/
def fetch_appt (aid : Int) (resp : HttpResponse) : Except String Record :=
  if resp.statusCode = 404 then
    Except.ok [("id", Value.int aid), ("status", Value.str "NOT_FOUND")]
  else if 400 ≤ resp.statusCode ∧ resp.statusCode < 600 then
    Except.error "HTTPError"
  else
    Except.ok (setdefault resp.payload "id" (Value.int aid))

/-- A named CSV column of (possibly missing) integer cells. -/
structure Column where
  name : String
  values : List (Option Int)
  deriving DecidableEq, Repr

/-- The job table: a list of named columns. -/
abbrev JobTable := List Column

/-- Python `str.lower` on the ASCII column names, character by character. -/
def lowerName (s : String) : List Char :=
  s.data.map Char.toLower

/-- Column selection test (src line 125): lower-cased name is one of the
two reference column names. -/
def isRefCol (c : Column) : Bool :=
  lowerName c.name == "firstappointmentid".data
    || lowerName c.name == "lastappointmentid".data

/-- The reference columns of the job table, in column order. -/
def refColumns (jt : JobTable) : List Column :=
  jt.filter isRefCol

/-- `pd.concat([job_df[c] for c in id_cols]).dropna()`: stack the selected
columns one after another (whole first column, then whole second column)
and drop missing cells. -/
def stackedRefValues (jt : JobTable) : List Int :=
  (((refColumns jt).map Column.values).flatten).filterMap id

/-- Helper for `uniqueFirstSeen`: drop every element already in `seen`,
keeping the first occurrence of each new element. -/
def uniqueAux (seen : List Int) : List Int → List Int
  | [] => []
  | x :: xs => if x ∈ seen then uniqueAux seen xs else x :: uniqueAux (x :: seen) xs

/-- pandas `.unique()`: deduplicate preserving first-seen order. -/
def uniqueFirstSeen (l : List Int) : List Int :=
  uniqueAux [] l

/-- The todo list (src lines 129-133): stacked reference values,
deduplicated in first-seen order, minus the IDs already in the dump. -/
def todoIds (jt : JobTable) (doneIds : List Int) : List Int :=
  (uniqueFirstSeen (stackedRefValues jt)).filter (fun i => !(doneIds.contains i))

/-- State of the fetch loop (src lines 140-154). `appends` records every
in-loop `append_drive_csv` call, in order; `attempts` records every ID a
fetch was attempted for; `tokenRefreshes` counts the in-loop `st_token`
calls. -/
structure LoopState where
  batch : List Record
  count : Nat
  appends : List (List Record)
  warnings : List Int
  attempts : List Int
  tokenRefreshes : Nat
  deriving DecidableEq, Repr

/-- The loop starts with an empty buffer and zero successes. -/
def initState : LoopState :=
  { batch := [], count := 0, appends := [], warnings := [], attempts := [],
    tokenRefreshes := 0 }

/-- One iteration of the fetch loop (src lines 143-154): attempt the fetch;
on error log a warning and continue; on success buffer the record, bump the
success count, and when the count reaches a multiple of `B` flush the
buffer, clear it and refresh the token. -/
def loopStep (fetch : Int → Except String Record) (B : Nat)
    (s : LoopState) (aid : Int) : LoopState :=
  match fetch aid with
  | Except.error _ =>
      { s with attempts := s.attempts ++ [aid], warnings := s.warnings ++ [aid] }
  | Except.ok r =>
      if (s.count + 1) % B = 0 then
        { s with attempts := s.attempts ++ [aid], batch := [],
                 count := s.count + 1, appends := s.appends ++ [s.batch ++ [r]],
                 tokenRefreshes := s.tokenRefreshes + 1 }
      else
        { s with attempts := s.attempts ++ [aid], batch := s.batch ++ [r],
                 count := s.count + 1 }

/-- The whole fetch loop over the todo list. -/
def runLoop (fetch : Int → Except String Record) (B : Nat)
    (todo : List Int) : LoopState :=
  todo.foldl (loopStep fetch B) initState

/-- Observable outcome of one run of `main`.  `appends` lists every
`append_drive_csv` call of the run (in-loop flushes followed by the final
flush); `tokenCalls` counts every `st_token` call; `createdDump` is whether
the header-only dump file was created; `finalCount` is the count printed by
the terminal report. -/
structure RunResult where
  exitOk : Bool
  errorMsg : Option String
  createdDump : Bool
  upToDate : Bool
  todo : List Int
  appends : List (List Record)
  warnings : List Int
  attempts : List Int
  tokenCalls : Nat
  finalCount : Nat
  deriving DecidableEq, Repr

/-- Default run outcome: successful exit, nothing performed. -/
def RunResult.empty : RunResult :=
  { exitOk := true, errorMsg := none, createdDump := false, upToDate := false,
    todo := [], appends := [], warnings := [], attempts := [], tokenCalls := 0,
    finalCount := 0 }

/-- `main` (src lines 103-158).  `job` is the job table when the job file
exists (`none` = file missing); `dump` is the integer `id` column of the
dump table when the dump file exists (`none` = file missing; the bootstrap
then creates a header-only file, whose table has no rows).  `fetch` gives
the outcome of fetching each ID and `B` is the batch size. -/
def main (job : Option JobTable) (dump : Option (List Int))
    (fetch : Int → Except String Record) (B : Nat) : RunResult :=
  match job with
  | none =>
      { RunResult.empty with
          exitOk := false,
          errorMsg := some "job_data.csv not found in folder." }
  | some jt =>
      let createdDump := dump.isNone
      let doneIds := dump.getD []
      if (refColumns jt).isEmpty then
        { RunResult.empty with
            exitOk := false,
            errorMsg := some "job_data.csv lacks firstappointmentid / lastappointmentid columns.",
            createdDump := createdDump }
      else
        let todo := todoIds jt doneIds
        if todo.isEmpty then
          { RunResult.empty with createdDump := createdDump, upToDate := true }
        else
          let s := runLoop fetch B todo
          { exitOk := true, errorMsg := none, createdDump := createdDump,
            upToDate := false, todo := todo, appends := s.appends ++ [s.batch],
            warnings := s.warnings, attempts := s.attempts,
            tokenCalls := 1 + s.tokenRefreshes, finalCount := s.count }

/-- Modelled from the spec (claim C1 refinement comparison): the traversal
the spec describes, scanning the reference columns left-to-right *within
each row, row-by-row* — for row index i, take the cell of each reference
column at i, left to right, then move to the next row. -/
def rowMajorStacked (jt : JobTable) : List Int :=
  (((List.range ((((refColumns jt).map Column.values).map List.length).foldr max 0)).map
      (fun i => ((refColumns jt).map Column.values).filterMap (fun col => col.get? i))).flatten).filterMap id

/-- Modelled from the spec (claim C1 refinement comparison): the todo list
the spec's row-major wording would produce. -/
def rowMajorTodo (jt : JobTable) (doneIds : List Int) : List Int :=
  (uniqueFirstSeen (rowMajorStacked jt)).filter (fun i => !(doneIds.contains i))

/-- Fetch oracle where every ID succeeds with the one-field record id ↦ aid. -/
def fetchOkId : Int → Except String Record :=
  fun aid => Except.ok [("id", Value.int aid)]

/-- Fetch oracle where ID 11 raises and every other ID succeeds. -/
def fetchFail11 : Int → Except String Record :=
  fun aid => if aid = 11 then Except.error "transient" else Except.ok [("id", Value.int aid)]

/-- Job table for the C1 counterexample: two reference columns whose
column-major and row-major traversals differ. -/
def jtC1 : JobTable :=
  [⟨"FirstAppointmentID", [some 1, some 2]⟩, ⟨"LastAppointmentID", [some 3, some 4]⟩]

/-- Job table for the C2 counterexample: two referenced IDs, so batch size
2 exactly divides the todo list. -/
def jtC2 : JobTable :=
  [⟨"firstappointmentid", [some 1, some 2]⟩]

/-- Non-2xx, non-404 HTTP response carrying a JSON body (e.g. a 300
Multiple Choices, which the HTTP client does not auto-follow). -/
def resp300 : HttpResponse :=
  ⟨300, [("choice", Value.str "a")]⟩

/-- Job table of the bootstrap scenario (claim C8). -/
def jtC8 : JobTable :=
  [⟨"FirstAppointmentID", [some 1, some 2]⟩, ⟨"LastAppointmentID", [some 2, some 3]⟩]

/-- Job table for witnesses: a single reference column naming IDs 5 and 6. -/
def jtW : JobTable :=
  [⟨"lastappointmentid", [some 5, some 6]⟩]

/-- Job table of the partial-failure scenario (claim C5): references IDs
10, 11 and 12. -/
def jtC5 : JobTable :=
  [⟨"firstappointmentid", [some 10, some 11, some 12]⟩]

/-- Size invariant of the fetch loop: the buffer holds `count % B` records,
there have been `count / B` in-loop flushes, every one of exactly `B`
records, and one in-loop token refresh per flush. -/
def SizeInv (B : Nat) (s : LoopState) : Prop :=
  s.batch.length = s.count % B ∧
  s.appends.map List.length = List.replicate (s.count / B) B ∧
  s.tokenRefreshes = s.count / B

/-! ### Characterization of the fetch loop -/

/-- A fetch is attempted for every ID of the todo list, in order. -/
theorem foldl_attempts (fetch : Int → Except String Record) (B : Nat) :
    ∀ (todo : List Int) (s : LoopState),
      (todo.foldl (loopStep fetch B) s).attempts = s.attempts ++ todo := by
  intro todo
  induction todo with
  | nil => intro s; simp
  | cons a t ih =>
      intro s
      rw [List.foldl_cons, ih]
      cases hf : fetch a with
      | error e => simp [loopStep, hf]
      | ok r => by_cases hb : (s.count + 1) % B = 0 <;> simp [loopStep, hf, hb]

/-- The warnings are exactly the todo IDs whose fetch raised, in order. -/
theorem foldl_warnings (fetch : Int → Except String Record) (B : Nat) :
    ∀ (todo : List Int) (s : LoopState),
      (todo.foldl (loopStep fetch B) s).warnings
        = s.warnings ++ todo.filter (fun i => !(fetch i).isOk) := by
  intro todo
  induction todo with
  | nil => intro s; simp
  | cons a t ih =>
      intro s
      rw [List.foldl_cons, ih]
      cases hf : fetch a with
      | error e => simp [loopStep, hf, Except.isOk, Except.toBool, List.filter_cons]
      | ok r =>
          by_cases hb : (s.count + 1) % B = 0 <;>
            simp [loopStep, hf, hb, Except.isOk, Except.toBool, List.filter_cons]

/-- The flushed batches together with the remaining buffer are exactly the
successfully fetched records, in todo order. -/
theorem foldl_flatten (fetch : Int → Except String Record) (B : Nat) :
    ∀ (todo : List Int) (s : LoopState),
      (todo.foldl (loopStep fetch B) s).appends.flatten
          ++ (todo.foldl (loopStep fetch B) s).batch
        = s.appends.flatten ++ s.batch
            ++ todo.filterMap (fun i => (fetch i).toOption) := by
  intro todo
  induction todo with
  | nil => intro s; simp
  | cons a t ih =>
      intro s
      rw [List.foldl_cons, ih]
      cases hf : fetch a with
      | error e => simp [loopStep, hf, Except.toOption]
      | ok r =>
          by_cases hb : (s.count + 1) % B = 0 <;>
            simp [loopStep, hf, hb, Except.toOption]

/-- The success counter counts exactly the todo IDs whose fetch succeeded. -/
theorem foldl_count (fetch : Int → Except String Record) (B : Nat) :
    ∀ (todo : List Int) (s : LoopState),
      (todo.foldl (loopStep fetch B) s).count
        = s.count + (todo.filter (fun i => (fetch i).isOk)).length := by
  intro todo
  induction todo with
  | nil => intro s; simp
  | cons a t ih =>
      intro s
      rw [List.foldl_cons, ih]
      cases hf : fetch a with
      | error e => simp [loopStep, hf, Except.isOk, Except.toBool, List.filter_cons]
      | ok r =>
          by_cases hb : (s.count + 1) % B = 0 <;>
            simp [loopStep, hf, hb, Except.isOk, Except.toBool, List.filter_cons,
              Nat.add_comm, Nat.add_assoc, Nat.add_left_comm]

/-- When `B` divides `n + 1`, the remainder of `n` is `B - 1`. -/
theorem mod_pred_of_succ_mod_eq_zero {B n : Nat} (hB : 0 < B)
    (h : (n + 1) % B = 0) : n % B = B - 1 := by
  obtain ⟨q, hq⟩ := Nat.dvd_of_mod_eq_zero h
  cases q with
  | zero => omega
  | succ p =>
      rw [Nat.mul_succ] at hq
      have hn : n = B * p + (B - 1) := by omega
      rw [hn, Nat.mul_add_mod, Nat.mod_eq_of_lt (by omega)]

/-- When `B` divides `n + 1`, the quotient of `n + 1` is one more. -/
theorem div_succ_of_succ_mod_eq_zero {B n : Nat}
    (h : (n + 1) % B = 0) : (n + 1) / B = n / B + 1 := by
  rw [Nat.succ_div, if_pos (Nat.dvd_of_mod_eq_zero h)]

/-- When `B` does not divide `n + 1`, remainder and quotient step simply. -/
theorem mod_div_succ_of_ne {B n : Nat} (h : (n + 1) % B ≠ 0) :
    (n + 1) % B = n % B + 1 ∧ (n + 1) / B = n / B := by
  cases B with
  | zero => simp
  | succ b =>
      have hnd : ¬ (b + 1) ∣ (n + 1) := by
        intro hd
        obtain ⟨k, hk⟩ := hd
        exact h (by rw [hk, Nat.mul_mod_right])
      constructor
      · have h1 := Nat.div_add_mod n (b + 1)
        have h2 := Nat.div_add_mod (n + 1) (b + 1)
        have hdq : (n + 1) / (b + 1) = n / (b + 1) := by
          rw [Nat.succ_div, if_neg hnd, Nat.add_zero]
        rw [hdq] at h2
        have hm2 : (n + 1) % (b + 1) < b + 1 := Nat.mod_lt _ (by omega)
        omega
      · rw [Nat.succ_div, if_neg hnd, Nat.add_zero]

/-- `SizeInv` holds at the start of the loop. -/
theorem sizeInv_init (B : Nat) : SizeInv B initState := by
  refine ⟨?_, ?_, ?_⟩ <;> simp [SizeInv, initState]

/-- One loop iteration preserves `SizeInv`. -/
theorem sizeInv_step (fetch : Int → Except String Record) {B : Nat}
    (hB : 0 < B) (s : LoopState) (aid : Int) (h : SizeInv B s) :
    SizeInv B (loopStep fetch B s aid) := by
  obtain ⟨hbatch, happ, htok⟩ := h
  cases hf : fetch aid with
  | error e => exact ⟨by simp [loopStep, hf, hbatch], by simp [loopStep, hf, happ],
      by simp [loopStep, hf, htok]⟩
  | ok r =>
      by_cases hb : (s.count + 1) % B = 0
      · have hm := mod_pred_of_succ_mod_eq_zero hB hb
        have hd := div_succ_of_succ_mod_eq_zero hb
        refine ⟨?_, ?_, ?_⟩
        · simp [loopStep, hf, hb]
        · simp only [loopStep, hf, if_pos hb]
          simp [happ, hd, List.replicate_succ', hbatch, hm]
          omega
        · simp [loopStep, hf, hb, htok, hd]
      · obtain ⟨hm, hd⟩ := mod_div_succ_of_ne hb
        refine ⟨?_, ?_, ?_⟩
        · simp [loopStep, hf, hb, hbatch, hm]
        · simp [loopStep, hf, hb, happ, hd]
        · simp [loopStep, hf, hb, htok, hd]

/-- `SizeInv` is preserved by the whole loop. -/
theorem sizeInv_foldl (fetch : Int → Except String Record) {B : Nat}
    (hB : 0 < B) :
    ∀ (todo : List Int) (s : LoopState), SizeInv B s →
      SizeInv B (todo.foldl (loopStep fetch B) s) := by
  intro todo
  induction todo with
  | nil => intro s hs; simpa using hs
  | cons a t ih =>
      intro s hs
      rw [List.foldl_cons]
      exact ih _ (sizeInv_step fetch hB s a hs)

/-- `SizeInv` holds of the final loop state. -/
theorem sizeInv_runLoop (fetch : Int → Except String Record) {B : Nat}
    (hB : 0 < B) (todo : List Int) : SizeInv B (runLoop fetch B todo) :=
  sizeInv_foldl fetch hB todo initState (sizeInv_init B)

/-! ### Deduplication lemmas -/

/-- Every element produced by `uniqueAux` comes from the input list. -/
theorem mem_of_mem_uniqueAux :
    ∀ (l seen : List Int) (x : Int), x ∈ uniqueAux seen l → x ∈ l := by
  intro l
  induction l with
  | nil => intro seen x hx; simp [uniqueAux] at hx
  | cons a t ih =>
      intro seen x hx
      by_cases ha : a ∈ seen
      · rw [uniqueAux, if_pos ha] at hx
        exact List.mem_cons_of_mem a (ih seen x hx)
      · rw [uniqueAux, if_neg ha] at hx
        rcases List.mem_cons.mp hx with h | h
        · exact h ▸ List.mem_cons_self a t
        · exact List.mem_cons_of_mem a (ih (a :: seen) x h)

/-- `uniqueAux` has no duplicates and avoids the `seen` accumulator. -/
theorem uniqueAux_nodup_avoid :
    ∀ (l seen : List Int),
      (uniqueAux seen l).Nodup ∧ ∀ x ∈ uniqueAux seen l, x ∉ seen := by
  intro l
  induction l with
  | nil => intro seen; simp [uniqueAux]
  | cons a t ih =>
      intro seen
      by_cases ha : a ∈ seen
      · rw [uniqueAux, if_pos ha]
        exact ih seen
      · rw [uniqueAux, if_neg ha]
        obtain ⟨hnd, havoid⟩ := ih (a :: seen)
        constructor
        · refine List.nodup_cons.mpr ⟨?_, hnd⟩
          intro hmem
          exact (havoid a hmem) (List.mem_cons_self a seen)
        · intro x hx hxseen
          rcases List.mem_cons.mp hx with h | h
          · exact ha (h ▸ hxseen)
          · exact (havoid x h) (List.mem_cons_of_mem a hxseen)

/-- The deduplicated list has no duplicates. -/
theorem uniqueFirstSeen_nodup (l : List Int) : (uniqueFirstSeen l).Nodup :=
  (uniqueAux_nodup_avoid l []).1

/-- The deduplicated list only contains elements of the input. -/
theorem mem_of_mem_uniqueFirstSeen {l : List Int} {x : Int}
    (h : x ∈ uniqueFirstSeen l) : x ∈ l :=
  mem_of_mem_uniqueAux l [] x h

/-! ### Evaluation lemmas for `main` -/

/-- Without reference columns the todo list is empty. -/
theorem todoIds_of_refColumns_eq_nil {jt : JobTable}
    (h : refColumns jt = []) (dump : List Int) : todoIds jt dump = [] := by
  simp [todoIds, stackedRefValues, h, uniqueFirstSeen, uniqueAux]

/-- `main` on a job table without reference columns: configuration error. -/
theorem main_eq_of_cols_empty (jt : JobTable) (dump : Option (List Int))
    (fetch : Int → Except String Record) (B : Nat)
    (h : refColumns jt = []) :
    main (some jt) dump fetch B =
      { RunResult.empty with
          exitOk := false,
          errorMsg := some "job_data.csv lacks firstappointmentid / lastappointmentid columns.",
          createdDump := dump.isNone } := by
  simp [main, h]

/-- `main` when the todo list is empty: the up-to-date report. -/
theorem main_eq_of_todo_empty (jt : JobTable) (dump : List Int)
    (fetch : Int → Except String Record) (B : Nat)
    (hcols : refColumns jt ≠ []) (h : todoIds jt dump = []) :
    main (some jt) (some dump) fetch B =
      { RunResult.empty with upToDate := true } := by
  simp [main, hcols, h, RunResult.empty]

/-- `main` when the todo list is nonempty: one run of the fetch loop
followed by the final flush and the final report. -/
theorem main_eq_loop (jt : JobTable) (dump : List Int)
    (fetch : Int → Except String Record) (B : Nat)
    (hcols : refColumns jt ≠ []) (hne : todoIds jt dump ≠ []) :
    main (some jt) (some dump) fetch B =
      { exitOk := true, errorMsg := none, createdDump := false,
        upToDate := false, todo := todoIds jt dump,
        appends := (runLoop fetch B (todoIds jt dump)).appends
            ++ [(runLoop fetch B (todoIds jt dump)).batch],
        warnings := (runLoop fetch B (todoIds jt dump)).warnings,
        attempts := (runLoop fetch B (todoIds jt dump)).attempts,
        tokenCalls := 1 + (runLoop fetch B (todoIds jt dump)).tokenRefreshes,
        finalCount := (runLoop fetch B (todoIds jt dump)).count } := by
  simp [main, hcols, hne]

/-- Successful fetch outcomes and successful fetches are in bijection. -/
theorem length_filterMap_toOption (fetch : Int → Except String Record)
    (l : List Int) :
    (l.filterMap (fun i => (fetch i).toOption)).length
      = (l.filter (fun i => (fetch i).isOk)).length := by
  induction l with
  | nil => simp
  | cons a t ih =>
      cases hf : fetch a with
      | error e =>
          have h1 : (fetch a).toOption = none := by rw [hf]; rfl
          have h2 : (fetch a).isOk = false := by rw [hf]; rfl
          simp [List.filterMap_cons, List.filter_cons, h1, h2, ih]
      | ok r =>
          have h1 : (fetch a).toOption = some r := by rw [hf]; rfl
          have h2 : (fetch a).isOk = true := by rw [hf]; rfl
          simp [List.filterMap_cons, List.filter_cons, h1, h2, ih]

/-! ### The claims -/

/-- C1 counterexample: on a job table with FirstAppointmentID = [1, 2] and
LastAppointmentID = [3, 4], the code appends rows in the order 1, 2, 3, 4
(whole first column, then whole second column), while the claimed
left-to-right row-by-row scan first encounters the IDs in the order
1, 3, 2, 4; the appended order does not match the claimed traversal. -/
theorem C1_counterexample :
    (main (some jtC1) (some []) fetchOkId 50).appends.flatten
        = [[("id", Value.int 1)], [("id", Value.int 2)],
           [("id", Value.int 3)], [("id", Value.int 4)]] ∧
    rowMajorTodo jtC1 [] = [1, 3, 2, 4] ∧
    ((main (some jtC1) (some []) fetchOkId 50).appends.flatten).map
        (fun r => r.lookup "id")
      ≠ (rowMajorTodo jtC1 []).map (fun i => some (Value.int i)) := by
  refine ⟨by decide, by decide, by decide⟩

/-- C1 (amended): the newly appended rows are ordered by the first-seen
order of the IDs when scanning the reference columns *column by column*
(each selected column in full, top to bottom, columns in job-table order),
not row-by-row: the concatenation of all appended batches is exactly the
successful fetch results in the order of `todoIds`, which stacks whole
columns. -/
theorem C1_order (jt : JobTable) (dump : List Int)
    (fetch : Int → Except String Record) (B : Nat) :
    (main (some jt) (some dump) fetch B).appends.flatten
      = (todoIds jt dump).filterMap (fun i => (fetch i).toOption) := by
  by_cases hcols : refColumns jt = []
  · rw [main_eq_of_cols_empty _ _ _ _ hcols, todoIds_of_refColumns_eq_nil hcols]
    rfl
  · by_cases hne : todoIds jt dump = []
    · rw [main_eq_of_todo_empty _ _ _ _ hcols hne, hne]; rfl
    · rw [main_eq_loop _ _ _ _ hcols hne]
      have h := foldl_flatten fetch B (todoIds jt dump) initState
      simp only [initState, List.flatten_nil, List.nil_append] at h
      simp only [runLoop] at h ⊢
      rw [List.flatten_append]
      simpa using h

/-- C2 counterexample: with TodoSet of size N = 2, zero fetch failures and
batch size B = 2, the run performs 2 append operations (one full batch plus
the unconditional final flush of an empty buffer), not ⌈N / B⌉ = 1. -/
theorem C2_counterexample :
    0 < (todoIds jtC2 []).length ∧
    (∀ i ∈ todoIds jtC2 [], (fetchOkId i).isOk = true) ∧
    (main (some jtC2) (some []) fetchOkId 2).appends.length = 2 ∧
    ((todoIds jtC2 []).length + 2 - 1) / 2 = 1 ∧
    (main (some jtC2) (some []) fetchOkId 2).appends.length
      ≠ ((todoIds jtC2 []).length + 2 - 1) / 2 := by
  refine ⟨by decide, by decide, by decide, by decide, by decide⟩

/-- C2 (amended): with TodoSet of size N > 0, zero fetch failures and batch
size B > 0, the run performs ⌊N / B⌋ append operations of exactly B rows
each, followed by one final append of N mod B rows — ⌊N / B⌋ + 1 appends in
total.  This equals ⌈N / B⌉ when B does not divide N; when B divides N the
final append is empty, giving one more operation than ⌈N / B⌉. -/
theorem C2_batch_sizes (jt : JobTable) (dump : List Int)
    (fetch : Int → Except String Record) (B : Nat) (hB : 0 < B)
    (hok : ∀ i ∈ todoIds jt dump, (fetch i).isOk = true)
    (hne : todoIds jt dump ≠ []) :
    (main (some jt) (some dump) fetch B).appends.map List.length
        = List.replicate ((todoIds jt dump).length / B) B
            ++ [(todoIds jt dump).length % B] ∧
    (main (some jt) (some dump) fetch B).appends.length
        = (todoIds jt dump).length / B + 1 := by
  have hcols : refColumns jt ≠ [] := fun h => hne (todoIds_of_refColumns_eq_nil h dump)
  rw [main_eq_loop jt dump fetch B hcols hne]
  obtain ⟨h1, h2, h3⟩ := sizeInv_runLoop fetch hB (todoIds jt dump)
  have hc : (runLoop fetch B (todoIds jt dump)).count = (todoIds jt dump).length := by
    have h4 := foldl_count fetch B (todoIds jt dump) initState
    rw [List.filter_eq_self.mpr hok] at h4
    simpa [runLoop, initState] using h4
  constructor
  · simp only [List.map_append, List.map_cons, List.map_nil]
    rw [h2, h1, hc]
  · have h5 := congrArg List.length h2
    simp only [List.length_map, List.length_replicate] at h5
    simp [h5, hc]

/-- C2 witness: two referenced IDs, batch size 50, zero failures — one full
loop pass with no in-loop flush and a final append of both rows. -/
theorem C2_witness :
    (main (some jtW) (some []) fetchOkId 50).appends.map List.length
        = List.replicate ((todoIds jtW []).length / 50) 50
            ++ [(todoIds jtW []).length % 50] ∧
    (main (some jtW) (some []) fetchOkId 50).appends.length
        = (todoIds jtW []).length / 50 + 1 :=
  C2_batch_sizes jtW [] fetchOkId 50 (by decide) (by decide) (by decide)

/-- C3: no ID present in the dump's id column appears in the computed todo
list, and when the dump already contains every referenced ID the todo list
is empty and the run appends zero rows. -/
theorem C3_idempotent (jt : JobTable) (dump : List Int)
    (fetch : Int → Except String Record) (B : Nat) :
    (∀ i ∈ dump, i ∉ todoIds jt dump) ∧
    ((∀ i ∈ stackedRefValues jt, i ∈ dump) →
      todoIds jt dump = [] ∧
      (main (some jt) (some dump) fetch B).appends = [] ∧
      (main (some jt) (some dump) fetch B).finalCount = 0) := by
  constructor
  · intro i hi hmem
    rw [todoIds, List.mem_filter] at hmem
    have h2 := hmem.2
    simp at h2
    exact h2 hi
  · intro hall
    have htodo : todoIds jt dump = [] := by
      rw [todoIds, List.filter_eq_nil_iff]
      intro a ha
      have haa : a ∈ dump := hall a (mem_of_mem_uniqueFirstSeen ha)
      simp [haa]
    refine ⟨htodo, ?_, ?_⟩
    · by_cases hcols : refColumns jt = []
      · rw [main_eq_of_cols_empty _ _ _ _ hcols]; rfl
      · rw [main_eq_of_todo_empty _ _ _ _ hcols htodo]; rfl
    · by_cases hcols : refColumns jt = []
      · rw [main_eq_of_cols_empty _ _ _ _ hcols]; rfl
      · rw [main_eq_of_todo_empty _ _ _ _ hcols htodo]; rfl

/-- C3 witness: the dump [5, 6] already covers every referenced ID of the
witness job table, so the second run's todo list is empty and it appends
nothing. -/
theorem C3_witness :
    todoIds jtW [5, 6] = [] ∧
    (main (some jtW) (some [5, 6]) fetchOkId 50).appends = [] ∧
    (main (some jtW) (some [5, 6]) fetchOkId 50).finalCount = 0 :=
  (C3_idempotent jtW [5, 6] fetchOkId 50).2 (by decide)

/-- C4 counterexample: a 300 response (non-2xx, not 404) carrying a JSON
body does not raise — `raise_for_status` only raises on status codes
400-599 — so `fetch_appt` returns the parsed payload instead of failing,
contradicting the claim that every non-2xx response other than 404
raises. -/
theorem C4_counterexample :
    (resp300.statusCode < 200 ∨ 299 < resp300.statusCode) ∧
    resp300.statusCode ≠ 404 ∧
    fetch_appt 7 resp300
      = Except.ok [("choice", Value.str "a"), ("id", Value.int 7)] := by
  refine ⟨by decide, by decide, rfl⟩

/-- C4 (amended): `fetch_appt` returns the sentinel record on a 404,
raises exactly on the other status codes in 400-599 (client and server
errors), and on any remaining status (2xx, and stray 1xx/3xx) returns the
parsed payload with the requested id injected only if the payload lacks an
id field. -/
theorem C4_fetch_appt (aid : Int) (resp : HttpResponse) :
    (resp.statusCode = 404 →
      fetch_appt aid resp
        = Except.ok [("id", Value.int aid), ("status", Value.str "NOT_FOUND")]) ∧
    (resp.statusCode ≠ 404 → 400 ≤ resp.statusCode → resp.statusCode < 600 →
      fetch_appt aid resp = Except.error "HTTPError") ∧
    (resp.statusCode ≠ 404 → ¬ (400 ≤ resp.statusCode ∧ resp.statusCode < 600) →
      fetch_appt aid resp
        = Except.ok (setdefault resp.payload "id" (Value.int aid))) := by
  refine ⟨?_, ?_, ?_⟩
  · intro h
    simp [fetch_appt, h]
  · intro h1 h2 h3
    simp [fetch_appt, h1, h2, h3]
  · intro h1 h2
    simp [fetch_appt, h1, h2]

/-- C4 witness: a 404 response yields the NOT_FOUND sentinel for the
requested ID. -/
theorem C4_witness :
    fetch_appt 9 ⟨404, []⟩
      = Except.ok [("id", Value.int 9), ("status", Value.str "NOT_FOUND")] :=
  (C4_fetch_appt 9 ⟨404, []⟩).1 rfl

/-- C5: a failing fetch is recorded as a warning for that ID and the ID is
permanently skipped — every todo ID is attempted exactly once in order, the
warned IDs are exactly the failing ones, the appended rows are exactly the
successful results, and the reported final count equals the number of
successes; in particular on todo [10, 11, 12] with 11 failing, the run
appends the rows for 10 and 12, warns on 11, and reports 2. -/
theorem C5_skip_failures (jt : JobTable) (dump : List Int)
    (fetch : Int → Except String Record) (B : Nat) :
    ((main (some jt) (some dump) fetch B).warnings
        = (main (some jt) (some dump) fetch B).todo.filter
            (fun i => !(fetch i).isOk) ∧
      (main (some jt) (some dump) fetch B).attempts
        = (main (some jt) (some dump) fetch B).todo ∧
      (main (some jt) (some dump) fetch B).appends.flatten
        = (main (some jt) (some dump) fetch B).todo.filterMap
            (fun i => (fetch i).toOption) ∧
      (main (some jt) (some dump) fetch B).finalCount
        = ((main (some jt) (some dump) fetch B).todo.filter
            (fun i => (fetch i).isOk)).length) ∧
    ((main (some jtC5) (some []) fetchFail11 50).appends.flatten
        = [[("id", Value.int 10)], [("id", Value.int 12)]] ∧
      (main (some jtC5) (some []) fetchFail11 50).warnings = [11] ∧
      (main (some jtC5) (some []) fetchFail11 50).finalCount = 2) := by
  constructor
  · by_cases hcols : refColumns jt = []
    · rw [main_eq_of_cols_empty _ _ _ _ hcols]
      exact ⟨rfl, rfl, rfl, rfl⟩
    · by_cases hne : todoIds jt dump = []
      · rw [main_eq_of_todo_empty _ _ _ _ hcols hne]
        exact ⟨rfl, rfl, rfl, rfl⟩
      · rw [main_eq_loop _ _ _ _ hcols hne]
        refine ⟨?_, ?_, ?_, ?_⟩
        · have h := foldl_warnings fetch B (todoIds jt dump) initState
          simpa [runLoop, initState] using h
        · have h := foldl_attempts fetch B (todoIds jt dump) initState
          simpa [runLoop, initState] using h
        · have h := foldl_flatten fetch B (todoIds jt dump) initState
          simp only [initState, List.flatten_nil, List.nil_append] at h
          simp only [runLoop] at h ⊢
          rw [List.flatten_append]
          simpa using h
        · have h := foldl_count fetch B (todoIds jt dump) initState
          simpa [runLoop, initState] using h
  · refine ⟨by decide, by decide, by decide⟩

/-- C6: when the computed todo list is empty (and the required reference
columns are present so the run reaches that computation), the workflow
reports up-to-date and exits successfully with no token request, no fetch
attempt and no append. -/
theorem C6_up_to_date (jt : JobTable) (dump : List Int)
    (fetch : Int → Except String Record) (B : Nat)
    (hcols : refColumns jt ≠ []) (h : todoIds jt dump = []) :
    (main (some jt) (some dump) fetch B).exitOk = true ∧
    (main (some jt) (some dump) fetch B).upToDate = true ∧
    (main (some jt) (some dump) fetch B).tokenCalls = 0 ∧
    (main (some jt) (some dump) fetch B).attempts = [] ∧
    (main (some jt) (some dump) fetch B).appends = [] := by
  rw [main_eq_of_todo_empty _ _ _ _ hcols h]
  exact ⟨rfl, rfl, rfl, rfl, rfl⟩

/-- C6 witness: the dump [5, 6] covers the witness job table, so the run
is a successful up-to-date no-op. -/
theorem C6_witness :
    (main (some jtW) (some [5, 6]) fetchOkId 50).exitOk = true ∧
    (main (some jtW) (some [5, 6]) fetchOkId 50).upToDate = true ∧
    (main (some jtW) (some [5, 6]) fetchOkId 50).tokenCalls = 0 ∧
    (main (some jtW) (some [5, 6]) fetchOkId 50).attempts = [] ∧
    (main (some jtW) (some [5, 6]) fetchOkId 50).appends = [] :=
  C6_up_to_date jtW [5, 6] fetchOkId 50 (by decide) (by decide)

/-- C7: flushes happen exactly when the cumulative count of successful
fetches reaches a multiple of the batch size: with batch size B > 0, the
in-loop appends are exactly ⌊count / B⌋ batches of exactly B records each,
one fresh token is obtained per in-loop flush, the buffer afterwards holds
the remaining count mod B records, and the count tallies successes only
(not attempts) — so a batch spans more than B attempts when fetches fail
inside it. -/
theorem C7_flush_boundary (fetch : Int → Except String Record) (B : Nat)
    (todo : List Int) (hB : 0 < B) :
    (runLoop fetch B todo).appends.map List.length
        = List.replicate ((runLoop fetch B todo).count / B) B ∧
    (runLoop fetch B todo).tokenRefreshes = (runLoop fetch B todo).count / B ∧
    (runLoop fetch B todo).batch.length = (runLoop fetch B todo).count % B ∧
    (runLoop fetch B todo).count
        = (todo.filter (fun i => (fetch i).isOk)).length := by
  obtain ⟨h1, h2, h3⟩ := sizeInv_runLoop fetch hB todo
  refine ⟨h2, h3, h1, ?_⟩
  have h4 := foldl_count fetch B todo initState
  simpa [runLoop, initState] using h4

/-- C7 witness: batch size 2 on todo [10, 11, 12, 13] with ID 11 failing —
the first flush happens only after three attempts (successes 10 and 12),
illustrating a batch spanning more than B attempts. -/
theorem C7_witness :
    (runLoop fetchFail11 2 [10, 11, 12, 13]).appends.map List.length
        = List.replicate ((runLoop fetchFail11 2 [10, 11, 12, 13]).count / 2) 2 ∧
    (runLoop fetchFail11 2 [10, 11, 12, 13]).tokenRefreshes
        = (runLoop fetchFail11 2 [10, 11, 12, 13]).count / 2 ∧
    (runLoop fetchFail11 2 [10, 11, 12, 13]).batch.length
        = (runLoop fetchFail11 2 [10, 11, 12, 13]).count % 2 ∧
    (runLoop fetchFail11 2 [10, 11, 12, 13]).count
        = (([10, 11, 12, 13] : List Int).filter
            (fun i => (fetchFail11 i).isOk)).length :=
  C7_flush_boundary fetchFail11 2 [10, 11, 12, 13] (by decide)

/-- C8: bootstrap scenario — with no pre-existing dump file, a job table
with FirstAppointmentID = [1, 2] and LastAppointmentID = [2, 3] and batch
size 2, the run creates the dump (header-only, so no IDs are done),
computes the deduplicated order-preserved todo list [1, 2, 3], appends one
full batch with the records for IDs 1 and 2, then a final append with the
record for ID 3, and exits successfully reporting 3. -/
theorem C8_bootstrap :
    (main (some jtC8) none fetchOkId 2).createdDump = true ∧
    (main (some jtC8) none fetchOkId 2).todo = [1, 2, 3] ∧
    (main (some jtC8) none fetchOkId 2).appends
        = [[[("id", Value.int 1)], [("id", Value.int 2)]],
           [[("id", Value.int 3)]]] ∧
    (main (some jtC8) none fetchOkId 2).exitOk = true ∧
    (main (some jtC8) none fetchOkId 2).finalCount = 3 := by
  refine ⟨by decide, by decide, by decide, by decide, by decide⟩

/-- C9: when the job file is missing, or the job table has no column whose
lower-cased name is firstappointmentid or lastappointmentid, the run
terminates with a message and a failing exit status, before any token
request, fetch attempt or append. -/
theorem C9_config_error (job : Option JobTable) (dump : Option (List Int))
    (fetch : Int → Except String Record) (B : Nat)
    (h : job = none ∨ ∃ jt, job = some jt ∧ refColumns jt = []) :
    (main job dump fetch B).exitOk = false ∧
    (main job dump fetch B).errorMsg.isSome = true ∧
    (main job dump fetch B).attempts = [] ∧
    (main job dump fetch B).tokenCalls = 0 ∧
    (main job dump fetch B).appends = [] := by
  rcases h with h | ⟨jt, hjt, hcols⟩
  · subst h
    exact ⟨rfl, rfl, rfl, rfl, rfl⟩
  · subst hjt
    rw [main_eq_of_cols_empty _ _ _ _ hcols]
    exact ⟨rfl, rfl, rfl, rfl, rfl⟩

/-- C9 witness: a missing job file aborts the run with a message, with no
fetch and no append. -/
theorem C9_witness :
    (main none (some []) fetchOkId 50).exitOk = false ∧
    (main none (some []) fetchOkId 50).errorMsg.isSome = true ∧
    (main none (some []) fetchOkId 50).attempts = [] ∧
    (main none (some []) fetchOkId 50).tokenCalls = 0 ∧
    (main none (some []) fetchOkId 50).appends = [] :=
  C9_config_error none (some []) fetchOkId 50 (Or.inl rfl)

/-- C10: every successfully fetched record is appended exactly once — the
todo list has no duplicates, the concatenation of all appended batches is
exactly the list of successful fetch results in todo order, and the
reported final count equals the total number of rows appended across all
append operations of the run. -/
theorem C10_exactly_once (jt : JobTable) (dump : List Int)
    (fetch : Int → Except String Record) (B : Nat) :
    (main (some jt) (some dump) fetch B).todo.Nodup ∧
    (main (some jt) (some dump) fetch B).appends.flatten
        = (main (some jt) (some dump) fetch B).todo.filterMap
            (fun i => (fetch i).toOption) ∧
    (main (some jt) (some dump) fetch B).finalCount
        = (main (some jt) (some dump) fetch B).appends.flatten.length := by
  by_cases hcols : refColumns jt = []
  · rw [main_eq_of_cols_empty _ _ _ _ hcols]
    exact ⟨List.nodup_nil, rfl, rfl⟩
  · by_cases hne : todoIds jt dump = []
    · rw [main_eq_of_todo_empty _ _ _ _ hcols hne]
      exact ⟨List.nodup_nil, rfl, rfl⟩
    · rw [main_eq_loop _ _ _ _ hcols hne]
      have hflat :
          ((runLoop fetch B (todoIds jt dump)).appends
              ++ [(runLoop fetch B (todoIds jt dump)).batch]).flatten
            = (todoIds jt dump).filterMap (fun i => (fetch i).toOption) := by
        have h := foldl_flatten fetch B (todoIds jt dump) initState
        simp only [initState, List.flatten_nil, List.nil_append] at h
        simp only [runLoop] at h ⊢
        rw [List.flatten_append]
        simpa using h
      refine ⟨?_, hflat, ?_⟩
      · exact List.Nodup.filter _ (uniqueFirstSeen_nodup (stackedRefValues jt))
      · rw [hflat, length_filterMap_toOption]
        have h4 := foldl_count fetch B (todoIds jt dump) initState
        simpa [runLoop, initState] using h4

end Appointments
